import Mathlib

/-!
Shallow embedding of the sumps transducer engine
(src/sumps/transducer/transduce.py, base.py and operator/*.py).

Python dynamic values are modelled by `Val`; Python exceptions by `Exc`;
fallible code returns `Except Exc`.  A reducer object (a class instance
carrying mutable fields) is modelled by a `Transducer σ`: the mutable
fields form the state type `σ`, `s0` is the state set by the
constructor, and each protocol method threads the state explicitly.
The async variants are embedded separately (their source classes are
separate), with the awaits erased: an `await e` computes the same value
as `e`.
-/

/-- Python exception objects, as far as the engine distinguishes them:
the class, the message, and (for exceptions raised via raise-from) the
chained cause, carried by the dedicated From constructors.
`userError tag` stands for an arbitrary exception object raised inside
a user-supplied predicate or transform. -/
inductive Exc : Type where
  | valueError (msg : String) : Exc
  | runtimeError (msg : String) : Exc
  | runtimeErrorFrom (msg : String) (cause : Exc) : Exc
  | typeError (msg : String) : Exc
  | typeErrorFrom (msg : String) (cause : Exc) : Exc
  | attributeError (msg : String) : Exc
  | userError (tag : Nat) : Exc
deriving DecidableEq, Repr

/-- Whether an exception object is an instance of TypeError (matched by
an except TypeError clause). -/
def Exc.isTypeError : Exc → Bool
  | .typeError _ => true
  | .typeErrorFrom _ _ => true
  | _ => false

/-- The message part of str(e), used when a wrapping layer formats the
original exception into its own message. -/
def excStr : Exc → String
  | .valueError m => m
  | .runtimeError m => m
  | .runtimeErrorFrom m _ => m
  | .typeError m => m
  | .typeErrorFrom m _ => m
  | .attributeError m => m
  | .userError t => "user exception " ++ toString t

/-- Dynamic Python values flowing through a pipeline: integers, lists,
None, and the `Reduced` sentinel box of base.py (class Reduced, which
wraps one accumulator value). -/
inductive Val : Type where
  | int (i : Int) : Val
  | list (l : List Val) : Val
  | none : Val
  | reduced (v : Val) : Val
deriving Repr

/-- Boolean equality on dynamic values (deep, element-wise on lists). -/
def Val.beq : Val → Val → Bool
  | .int i, .int j => i == j
  | .none, .none => true
  | .reduced v, .reduced w => Val.beq v w
  | .list [], .list [] => true
  | .list (a :: as), .list (b :: bs) => Val.beq a b && Val.beq (.list as) (.list bs)
  | _, _ => false

theorem Val.beq_iff : ∀ a b : Val, Val.beq a b = true ↔ a = b := by
  intro a b
  induction a, b using Val.beq.induct <;> simp_all [Val.beq]
  rename_i x y h1 h2 h3 h4 h5
  intro h
  subst h
  cases x with
  | int i => exact h1 i i rfl rfl
  | none => exact h2 rfl rfl
  | reduced v => exact h3 v v rfl rfl
  | list l =>
    cases l with
    | nil => exact h4 rfl rfl
    | cons a as => exact h5 a as a as rfl rfl

instance : DecidableEq Val := fun a b =>
  decidable_of_iff (Val.beq a b = true) (Val.beq_iff a b)

instance {ε α : Type} [DecidableEq ε] [DecidableEq α] : DecidableEq (Except ε α)
  | .ok a, .ok b => if h : a = b then .isTrue (by rw [h]) else .isFalse (by simp [h])
  | .error a, .error b => if h : a = b then .isTrue (by rw [h]) else .isFalse (by simp [h])
  | .ok _, .error _ => .isFalse (by simp)
  | .error _, .ok _ => .isFalse (by simp)

/-- Python truthiness for the values of `Val` (used by `if predicate(item)`). -/
def truthy : Val → Bool
  | .int i => i != 0
  | .list l => !l.isEmpty
  | .none => false
  | .reduced _ => true

/-- A (sync or async) reducer object: the state type `σ` holds the
object's mutable fields, `s0` is the state right after construction,
and initial/step/complete mirror the Transducer protocol of base.py.
Each call may raise (`Except Exc`) and returns the updated object state
together with its Python return value. -/
structure Transducer (σ : Type) : Type where
  s0 : σ
  initial : σ → Except Exc (σ × Val)
  step : σ → Val → Val → Except Exc (σ × Val)
  complete : σ → Val → Except Exc (σ × Val)

/-! ## Terminal collector: operator/appending.py -/

/-- class Appending: initial → [], step appends the item, complete is
the identity.  Appending onto a non-list value raises (the attribute
lookup result.append fails on such a value). -/
def Appending : Transducer Unit where
  s0 := ()
  initial := fun s => .ok (s, .list [])
  step := fun s acc item =>
    match acc with
    | .list l => .ok (s, .list (l ++ [item]))
    | _ => .error (.attributeError "append")
  complete := fun s acc => .ok (s, acc)

/-- def appending(): return Appending() -/
def appending : Transducer Unit := Appending

/-! ## Orchestrator: transduce.py -/

/-- The for-loop of _process_items: feed items one by one through
pipeline.step; as soon as the returned accumulator is a Reduced box,
stop and return its unwrapped value. -/
def processLoop {σ : Type} (tr : Transducer σ) : σ → List Val → Val → Except Exc (σ × Val)
  | s, [], acc => .ok (s, acc)
  | s, item :: rest, acc =>
    match tr.step s acc item with
    | .error e => .error e
    | .ok (s', acc') =>
      match acc' with
      | .reduced v => .ok (s', v)
      | a => processLoop tr s' rest a

/-- _process_items: the loop wrapped in try/except, which re-raises any
exception as RuntimeError(f-string) chained from the original. -/
def processItems {σ : Type} (tr : Transducer σ) (s : σ) (items : List Val) (acc : Val) :
    Except Exc (σ × Val) :=
  match processLoop tr s items acc with
  | .error e => .error (.runtimeErrorFrom ("Error processing item: " ++ excStr e) e)
  | r => r

/-- The accumulator-initialization block of transduce: when no init
value is supplied, call pipeline.initial() (wrapping an error in
RuntimeError); otherwise use the given value with the pipeline's
constructor-time state. -/
def transduceInit {σ : Type} (p : Transducer σ) (init : Option Val) :
    Except Exc (σ × Val) :=
  match init with
  | Option.none =>
    match p.initial p.s0 with
    | .error e =>
      .error (.runtimeErrorFrom ("Failed to initialize accumulator: " ++ excStr e) e)
    | .ok sa => .ok sa
  | some v => .ok (p.s0, v)

/-- The body of transduce once the pipeline is built: initialize the
accumulator, run _process_items, then call pipeline.complete. -/
def runPipeline {σ : Type} (p : Transducer σ) (items : List Val) (init : Option Val) :
    Except Exc Val :=
  match transduceInit p init with
  | .error e => .error e
  | .ok (s, acc) =>
    match processItems p s items acc with
    | .error e => .error e
    | .ok (s', acc') =>
      match p.complete s' acc' with
      | .error e => .error e
      | .ok (_, out) => .ok out

/-- transduce(transducer, iterable, reducer, init): build the pipeline
by applying the transducer to the reducer (wrapping a constructor error
in TypeError), then run it over the items.  The context-manager
enter/exit hooks of BaseTransducer are no-ops, and the outer except
re-raises unchanged, so they do not appear in the value-level model. -/
def transduce {ρ σ : Type} (transducer : Transducer ρ → Except Exc (Transducer σ))
    (reducer : Transducer ρ) (items : List Val) (init : Option Val) : Except Exc Val :=
  match transducer reducer with
  | .error e =>
    .error (.typeErrorFrom ("Failed to apply transducer to reducer: " ++ excStr e) e)
  | .ok p => runPipeline p items init

/-! ## operator/take.py -/

/-- class Take: a counter plus the wrapped reducer's state.  step: if
the limit is non-positive, return Reduced(result) without delegating;
otherwise increment the counter, delegate, and wrap the delegated value
in Reduced once the counter has reached the limit. -/
def Take {σ : Type} (reducer : Transducer σ) (limit : Int) : Transducer (Int × σ) where
  s0 := (0, reducer.s0)
  initial := fun s =>
    match s with
    | (_, ds) => (reducer.initial ds).map (fun r => ((0, r.1), r.2))
  step := fun s acc item =>
    match s with
    | (c, ds) =>
      if limit ≤ 0 then .ok ((c, ds), .reduced acc)
      else
        match reducer.step ds acc item with
        | .error e => .error e
        | .ok (ds', value) =>
          .ok ((c + 1, ds'), if c + 1 < limit then value else .reduced value)
  complete := fun s acc =>
    match s with
    | (c, ds) => (reducer.complete ds acc).map (fun r => ((c, r.1), r.2))

/-- def take(limit): the returned closure take_transducer constructs a
Take around the reducer it is applied to; neither the factory body nor
the constructor can raise. -/
def take {σ : Type} (limit : Int) : Transducer σ → Except Exc (Transducer (Int × σ)) :=
  fun reducer => .ok (Take reducer limit)

/-! ## operator/filtering.py -/

/-- class Filtering: no state of its own.  step evaluates the predicate
on the item (any exception it raises escapes) and delegates only when
the returned value is truthy; initial and complete just delegate. -/
def Filtering {σ : Type} (reducer : Transducer σ) (predicate : Val → Except Exc Val) :
    Transducer σ where
  s0 := reducer.s0
  initial := reducer.initial
  step := fun s acc item =>
    match predicate item with
    | .error e => .error e
    | .ok b => if truthy b then reducer.step s acc item else .ok (s, acc)
  complete := reducer.complete

/-- def filtering(predicate): the returned closure constructs a
Filtering around the reducer it is applied to. -/
def filtering {σ : Type} (predicate : Val → Except Exc Val) :
    Transducer σ → Except Exc (Transducer σ) :=
  fun reducer => .ok (Filtering reducer predicate)

/-! ## operator/batching.py -/

/-- The Batching instance built once the size check has passed: the
state is the pending buffer plus the wrapped reducer's state.  step
appends the item to the buffer and, when the buffer length equals the
size, delegates the full batch and clears the buffer; complete first
delegates the non-empty leftover buffer as one final partial batch. -/
def Batching.make {σ : Type} (reducer : Transducer σ) (size : Int) :
    Transducer (List Val × σ) where
  s0 := ([], reducer.s0)
  initial := fun s =>
    match s with
    | (_, ds) => (reducer.initial ds).map (fun r => (([], r.1), r.2))
  step := fun s acc item =>
    match s with
    | (pending, ds) =>
      let pending' := pending ++ [item]
      if (pending'.length : Int) = size then
        (reducer.step ds acc (.list pending')).map (fun r => (([], r.1), r.2))
      else .ok ((pending', ds), acc)
  complete := fun s acc =>
    match s with
    | (pending, ds) =>
      if pending.isEmpty then
        (reducer.complete ds acc).map (fun r => ((pending, r.1), r.2))
      else
        match reducer.step ds acc (.list pending) with
        | .error e => .error e
        | .ok (ds', r') => (reducer.complete ds' r').map (fun r => ((pending, r.1), r.2))

/-- Batching.__init__: raises ValueError when size < 1, otherwise the
instance is constructed. -/
def Batching {σ : Type} (reducer : Transducer σ) (size : Int) :
    Except Exc (Transducer (List Val × σ)) :=
  if size < 1 then .error (.valueError "batching() size must be at least 1")
  else .ok (Batching.make reducer size)

/-- def batching(size): the factory body only defines and returns the
inner closure batching_transducer, so the factory call itself never
raises; the ValueError surfaces when the closure is applied. -/
def batching {σ : Type} (size : Int) :
    Except Exc (Transducer σ → Except Exc (Transducer (List Val × σ))) :=
  .ok (fun reducer => Batching reducer size)

/-! ## operator/repeating.py -/

/-- The for-loop of Repeating.step: delegate the same item num_times
times, threading the accumulator. -/
def repeatLoop {σ : Type} (reducer : Transducer σ) :
    Nat → σ → Val → Val → Except Exc (σ × Val)
  | 0, s, acc, _ => .ok (s, acc)
  | k + 1, s, acc, item =>
    match reducer.step s acc item with
    | .error e => .error e
    | .ok (s', acc') => repeatLoop reducer k s' acc' item

/-- Repeating.__init__: raises ValueError when num_times < 0, otherwise
builds the instance whose step delegates the item num_times times. -/
def Repeating {σ : Type} (reducer : Transducer σ) (num_times : Int) :
    Except Exc (Transducer σ) :=
  if num_times < 0 then .error (.valueError "num_times cannot be negative")
  else .ok
    { s0 := reducer.s0
      initial := reducer.initial
      step := fun s acc item => repeatLoop reducer num_times.toNat s acc item
      complete := reducer.complete }

/-- def repeating(num_times): the factory body only defines and returns
the inner closure, so the factory call itself never raises; the
ValueError surfaces when the closure is applied. -/
def repeating {σ : Type} (num_times : Int) :
    Except Exc (Transducer σ → Except Exc (Transducer σ)) :=
  .ok (fun reducer => Repeating reducer num_times)

/-! ## operator/nth.py -/

/-- class Nth: a counter plus the wrapped reducer's state.  step
increments the counter and, exactly when it equals n, delegates the
item and wraps the result in Reduced; otherwise it returns the
accumulator unchanged.  complete injects the default value through one
delegated step when fewer than n items were counted, then delegates
completion. -/
def Nth {σ : Type} (reducer : Transducer σ) (n : Int) (default : Val) :
    Transducer (Int × σ) where
  s0 := (0, reducer.s0)
  initial := fun s =>
    match s with
    | (_, ds) => (reducer.initial ds).map (fun r => ((0, r.1), r.2))
  step := fun s acc item =>
    match s with
    | (c, ds) =>
      if c + 1 = n then
        (reducer.step ds acc item).map (fun r => ((c + 1, r.1), Val.reduced r.2))
      else .ok ((c + 1, ds), acc)
  complete := fun s acc =>
    match s with
    | (c, ds) =>
      if c < n then
        match reducer.step ds acc default with
        | .error e => .error e
        | .ok (ds', r') => (reducer.complete ds' r').map (fun r => ((c, r.1), r.2))
      else (reducer.complete ds acc).map (fun r => ((c, r.1), r.2))

/-- def nth(n, default): the returned closure constructs an Nth. -/
def nth {σ : Type} (n : Int) (default : Val) :
    Transducer σ → Except Exc (Transducer (Int × σ)) :=
  fun reducer => .ok (Nth reducer n default)

/-! ## operator/expecting_single.py -/

/-- class ExpectingSingle: a step counter plus the wrapped reducer's
state.  step increments the counter and raises RuntimeError once it
exceeds one, otherwise delegates; complete raises RuntimeError when no
step at all was seen, otherwise delegates. -/
def ExpectingSingle {σ : Type} (reducer : Transducer σ) : Transducer (Int × σ) where
  s0 := (0, reducer.s0)
  initial := fun s =>
    match s with
    | (_, ds) => (reducer.initial ds).map (fun r => ((0, r.1), r.2))
  step := fun s acc item =>
    match s with
    | (c, ds) =>
      if c + 1 > 1 then .error (.runtimeError "Too many steps!")
      else (reducer.step ds acc item).map (fun r => ((c + 1, r.1), r.2))
  complete := fun s acc =>
    match s with
    | (c, ds) =>
      if c < 1 then .error (.runtimeError "Too few steps!")
      else (reducer.complete ds acc).map (fun r => ((c, r.1), r.2))

/-- def expecting_single(): the returned closure wraps the reducer. -/
def expecting_single {σ : Type} : Transducer σ → Except Exc (Transducer (Int × σ)) :=
  fun reducer => .ok (ExpectingSingle reducer)

/-! ## operator/take_last.py and operator/drop_last.py -/

/-- class TakeLast: stateless beyond the wrapped reducer; step and
initial delegate untouched.  complete slices the accumulated sized
result: non-positive limit keeps the empty slice, a result at least as
long as the limit keeps its trailing limit elements, a shorter result
is kept whole.  On values with no len/slicing (modelled by the
non-list cases) the TypeError is caught and the accumulator is
completed unchanged. -/
def TakeLast {σ : Type} (reducer : Transducer σ) (limit : Int) : Transducer σ where
  s0 := reducer.s0
  initial := reducer.initial
  step := reducer.step
  complete := fun s acc =>
    match acc with
    | .list l =>
      if limit ≤ 0 then reducer.complete s (.list [])
      else if limit ≤ (l.length : Int) then
        reducer.complete s (.list (l.drop (l.length - limit.toNat)))
      else reducer.complete s acc
    | _ => reducer.complete s acc

/-- def take_last(limit): the returned closure constructs a TakeLast. -/
def take_last {σ : Type} (limit : Int) : Transducer σ → Except Exc (Transducer σ) :=
  fun reducer => .ok (TakeLast reducer limit)

/-- class DropLast: like TakeLast but complete keeps everything except
the trailing limit elements: non-positive limit keeps the result
whole, a result longer than the limit keeps its leading part, and a
result not longer than the limit becomes the empty slice. -/
def DropLast {σ : Type} (reducer : Transducer σ) (limit : Int) : Transducer σ where
  s0 := reducer.s0
  initial := reducer.initial
  step := reducer.step
  complete := fun s acc =>
    match acc with
    | .list l =>
      if limit ≤ 0 then reducer.complete s acc
      else if limit < (l.length : Int) then
        reducer.complete s (.list (l.take (l.length - limit.toNat)))
      else reducer.complete s (.list [])
    | _ => reducer.complete s acc

/-- def drop_last(limit): the returned closure constructs a DropLast. -/
def drop_last {σ : Type} (limit : Int) : Transducer σ → Except Exc (Transducer σ) :=
  fun reducer => .ok (DropLast reducer limit)

/-!
## The asynchronous half

Each Async* class and the atransduce orchestrator are embedded
separately from their own source text, with awaits erased: in the
value model `await e` yields the value of `e`, and an async source
built by async_from_iterable over a list yields the same items in the
same order.  The async reducers therefore also inhabit `Transducer`.
-/

/-- class AsyncAppending (operator/appending.py). -/
def AsyncAppending : Transducer Unit where
  s0 := ()
  initial := fun s => .ok (s, .list [])
  step := fun s acc item =>
    match acc with
    | .list l => .ok (s, .list (l ++ [item]))
    | _ => .error (.attributeError "append")
  complete := fun s acc => .ok (s, acc)

/-- def aappending(): return AsyncAppending() -/
def aappending : Transducer Unit := AsyncAppending

/-- The async for-loop of _aprocess_items (transduce.py). -/
def aprocessLoop {σ : Type} (tr : Transducer σ) : σ → List Val → Val → Except Exc (σ × Val)
  | s, [], acc => .ok (s, acc)
  | s, item :: rest, acc =>
    match tr.step s acc item with
    | .error e => .error e
    | .ok (s', acc') =>
      match acc' with
      | .reduced v => .ok (s', v)
      | a => aprocessLoop tr s' rest a

/-- _aprocess_items: the async loop wrapped in try/except, re-raising
any exception as RuntimeError chained from the original. -/
def aprocessItems {σ : Type} (tr : Transducer σ) (s : σ) (items : List Val) (acc : Val) :
    Except Exc (σ × Val) :=
  match aprocessLoop tr s items acc with
  | .error e => .error (.runtimeErrorFrom ("Error processing async item: " ++ excStr e) e)
  | r => r

/-- The accumulator-initialization block of atransduce. -/
def atransduceInit {σ : Type} (p : Transducer σ) (init : Option Val) :
    Except Exc (σ × Val) :=
  match init with
  | Option.none =>
    match p.initial p.s0 with
    | .error e =>
      .error (.runtimeErrorFrom ("Failed to initialize async accumulator: " ++ excStr e) e)
    | .ok sa => .ok sa
  | some v => .ok (p.s0, v)

/-- The body of atransduce once the pipeline is built. -/
def arunPipeline {σ : Type} (p : Transducer σ) (items : List Val) (init : Option Val) :
    Except Exc Val :=
  match atransduceInit p init with
  | .error e => .error e
  | .ok (s, acc) =>
    match aprocessItems p s items acc with
    | .error e => .error e
    | .ok (s', acc') =>
      match p.complete s' acc' with
      | .error e => .error e
      | .ok (_, out) => .ok out

/-- atransduce(transducer, iterable, reducer, init): structurally the
async twin of transduce, with its own wrap messages. -/
def atransduce {ρ σ : Type} (transducer : Transducer ρ → Except Exc (Transducer σ))
    (reducer : Transducer ρ) (items : List Val) (init : Option Val) : Except Exc Val :=
  match transducer reducer with
  | .error e =>
    .error (.typeErrorFrom ("Failed to apply async transducer to reducer: " ++ excStr e) e)
  | .ok p => arunPipeline p items init

/-- class AsyncTake (operator/take.py): same logic as Take. -/
def AsyncTake {σ : Type} (reducer : Transducer σ) (limit : Int) : Transducer (Int × σ) where
  s0 := (0, reducer.s0)
  initial := fun s =>
    match s with
    | (_, ds) => (reducer.initial ds).map (fun r => ((0, r.1), r.2))
  step := fun s acc item =>
    match s with
    | (c, ds) =>
      if limit ≤ 0 then .ok ((c, ds), .reduced acc)
      else
        match reducer.step ds acc item with
        | .error e => .error e
        | .ok (ds', value) =>
          .ok ((c + 1, ds'), if c + 1 < limit then value else .reduced value)
  complete := fun s acc =>
    match s with
    | (c, ds) => (reducer.complete ds acc).map (fun r => ((c, r.1), r.2))

/-- def atake(limit): the returned closure constructs an AsyncTake. -/
def atake {σ : Type} (limit : Int) : Transducer σ → Except Exc (Transducer (Int × σ)) :=
  fun reducer => .ok (AsyncTake reducer limit)

/-- class AsyncFiltering (operator/filtering.py), embedded for an
asynchronous predicate.  step first evaluates await predicate(item)
inside try; when that raises a TypeError, the except TypeError clause
falls back to calling the predicate without await, which on an async
callable builds a fresh coroutine object — a truthy value — so the
item is then delegated.  Any non-TypeError exception escapes. -/
def AsyncFiltering {σ : Type} (reducer : Transducer σ) (predicate : Val → Except Exc Val) :
    Transducer σ where
  s0 := reducer.s0
  initial := reducer.initial
  step := fun s acc item =>
    match predicate item with
    | .error e =>
      if e.isTypeError then reducer.step s acc item
      else .error e
    | .ok b => if truthy b then reducer.step s acc item else .ok (s, acc)
  complete := reducer.complete

/-- def afiltering(predicate): the returned closure constructs an
AsyncFiltering. -/
def afiltering {σ : Type} (predicate : Val → Except Exc Val) :
    Transducer σ → Except Exc (Transducer σ) :=
  fun reducer => .ok (AsyncFiltering reducer predicate)

/-- The AsyncBatching instance once the size check has passed
(operator/batching.py): same logic as Batching.make. -/
def AsyncBatching.make {σ : Type} (reducer : Transducer σ) (size : Int) :
    Transducer (List Val × σ) where
  s0 := ([], reducer.s0)
  initial := fun s =>
    match s with
    | (_, ds) => (reducer.initial ds).map (fun r => (([], r.1), r.2))
  step := fun s acc item =>
    match s with
    | (pending, ds) =>
      let pending' := pending ++ [item]
      if (pending'.length : Int) = size then
        (reducer.step ds acc (.list pending')).map (fun r => (([], r.1), r.2))
      else .ok ((pending', ds), acc)
  complete := fun s acc =>
    match s with
    | (pending, ds) =>
      if pending.isEmpty then
        (reducer.complete ds acc).map (fun r => ((pending, r.1), r.2))
      else
        match reducer.step ds acc (.list pending) with
        | .error e => .error e
        | .ok (ds', r') => (reducer.complete ds' r').map (fun r => ((pending, r.1), r.2))

/-- AsyncBatching.__init__: raises ValueError when size < 1 (with its
own message), otherwise the instance is constructed. -/
def AsyncBatching {σ : Type} (reducer : Transducer σ) (size : Int) :
    Except Exc (Transducer (List Val × σ)) :=
  if size < 1 then .error (.valueError "abatching() size must be at least 1")
  else .ok (AsyncBatching.make reducer size)

/-- def abatching(size): the factory body only returns the inner
closure; the ValueError surfaces when the closure is applied. -/
def abatching {σ : Type} (size : Int) :
    Except Exc (Transducer σ → Except Exc (Transducer (List Val × σ))) :=
  .ok (fun reducer => AsyncBatching reducer size)

/-- class AsyncNth (operator/nth.py): same logic as Nth. -/
def AsyncNth {σ : Type} (reducer : Transducer σ) (n : Int) (default : Val) :
    Transducer (Int × σ) where
  s0 := (0, reducer.s0)
  initial := fun s =>
    match s with
    | (_, ds) => (reducer.initial ds).map (fun r => ((0, r.1), r.2))
  step := fun s acc item =>
    match s with
    | (c, ds) =>
      if c + 1 = n then
        (reducer.step ds acc item).map (fun r => ((c + 1, r.1), Val.reduced r.2))
      else .ok ((c + 1, ds), acc)
  complete := fun s acc =>
    match s with
    | (c, ds) =>
      if c < n then
        match reducer.step ds acc default with
        | .error e => .error e
        | .ok (ds', r') => (reducer.complete ds' r').map (fun r => ((c, r.1), r.2))
      else (reducer.complete ds acc).map (fun r => ((c, r.1), r.2))

/-- def anth(n, default): the returned closure constructs an AsyncNth. -/
def anth {σ : Type} (n : Int) (default : Val) :
    Transducer σ → Except Exc (Transducer (Int × σ)) :=
  fun reducer => .ok (AsyncNth reducer n default)

/-- class AsyncExpectingSingle (operator/expecting_single.py):
same logic and messages as ExpectingSingle. -/
def AsyncExpectingSingle {σ : Type} (reducer : Transducer σ) : Transducer (Int × σ) where
  s0 := (0, reducer.s0)
  initial := fun s =>
    match s with
    | (_, ds) => (reducer.initial ds).map (fun r => ((0, r.1), r.2))
  step := fun s acc item =>
    match s with
    | (c, ds) =>
      if c + 1 > 1 then .error (.runtimeError "Too many steps!")
      else (reducer.step ds acc item).map (fun r => ((c + 1, r.1), r.2))
  complete := fun s acc =>
    match s with
    | (c, ds) =>
      if c < 1 then .error (.runtimeError "Too few steps!")
      else (reducer.complete ds acc).map (fun r => ((c, r.1), r.2))

/-- def aexpecting_single(): the returned closure wraps the reducer. -/
def aexpecting_single {σ : Type} : Transducer σ → Except Exc (Transducer (Int × σ)) :=
  fun reducer => .ok (AsyncExpectingSingle reducer)

/-- class AsyncRepeating (operator/repeating.py): raises ValueError for
a negative count, otherwise its step delegates the item num_times
times via the same loop as Repeating. -/
def AsyncRepeating {σ : Type} (reducer : Transducer σ) (num_times : Int) :
    Except Exc (Transducer σ) :=
  if num_times < 0 then .error (.valueError "num_times cannot be negative")
  else .ok
    { s0 := reducer.s0
      initial := reducer.initial
      step := fun s acc item => repeatLoop reducer num_times.toNat s acc item
      complete := reducer.complete }

/-- def arepeating(num_times): the factory body only returns the inner
closure; the ValueError surfaces when the closure is applied. -/
def arepeating {σ : Type} (num_times : Int) :
    Except Exc (Transducer σ → Except Exc (Transducer σ)) :=
  .ok (fun reducer => AsyncRepeating reducer num_times)

/-- class AsyncTakeLast (operator/take_last.py): same logic as TakeLast. -/
def AsyncTakeLast {σ : Type} (reducer : Transducer σ) (limit : Int) : Transducer σ where
  s0 := reducer.s0
  initial := reducer.initial
  step := reducer.step
  complete := fun s acc =>
    match acc with
    | .list l =>
      if limit ≤ 0 then reducer.complete s (.list [])
      else if limit ≤ (l.length : Int) then
        reducer.complete s (.list (l.drop (l.length - limit.toNat)))
      else reducer.complete s acc
    | _ => reducer.complete s acc

/-- def atake_last(limit): the returned closure constructs an
AsyncTakeLast. -/
def atake_last {σ : Type} (limit : Int) : Transducer σ → Except Exc (Transducer σ) :=
  fun reducer => .ok (AsyncTakeLast reducer limit)

/-- class AsyncDropLast (operator/drop_last.py): same logic as DropLast. -/
def AsyncDropLast {σ : Type} (reducer : Transducer σ) (limit : Int) : Transducer σ where
  s0 := reducer.s0
  initial := reducer.initial
  step := reducer.step
  complete := fun s acc =>
    match acc with
    | .list l =>
      if limit ≤ 0 then reducer.complete s acc
      else if limit < (l.length : Int) then
        reducer.complete s (.list (l.take (l.length - limit.toNat)))
      else reducer.complete s (.list [])
    | _ => reducer.complete s acc

/-- def adrop_last(limit): the returned closure constructs an
AsyncDropLast. -/
def adrop_last {σ : Type} (limit : Int) : Transducer σ → Except Exc (Transducer σ) :=
  fun reducer => .ok (AsyncDropLast reducer limit)

/-! ## Helper lemmas -/

theorem aprocessLoop_eq {σ : Type} (tr : Transducer σ) :
    ∀ (items : List Val) (s : σ) (acc : Val),
    aprocessLoop tr s items acc = processLoop tr s items acc := by
  intro items
  induction items with
  | nil => intro s acc; rfl
  | cons item rest ih =>
    intro s acc
    simp only [aprocessLoop, processLoop]
    cases tr.step s acc item with
    | error e => rfl
    | ok p =>
      obtain ⟨s', acc'⟩ := p
      cases acc' <;> simp only [ih]

theorem aprocessItems_toOption {σ : Type} (tr : Transducer σ) (s : σ)
    (items : List Val) (acc : Val) :
    (aprocessItems tr s items acc).toOption = (processItems tr s items acc).toOption := by
  simp only [aprocessItems, processItems, aprocessLoop_eq]
  cases processLoop tr s items acc <;> rfl

/-- Eliminator for toOption-agreement of two fallible computations:
either both succeed with the same value, or both fail. -/
theorem toOption_eq_elim {α : Type} {x y : Except Exc α} (h : x.toOption = y.toOption) :
    (∃ a, x = .ok a ∧ y = .ok a) ∨ ((∃ e, x = .error e) ∧ (∃ f, y = .error f)) := by
  cases x with
  | error e =>
    cases y with
    | error f => exact Or.inr ⟨⟨e, rfl⟩, ⟨f, rfl⟩⟩
    | ok b => simp [Except.toOption] at h
  | ok a =>
    cases y with
    | error f => simp [Except.toOption] at h
    | ok b =>
      simp only [Except.toOption] at h
      obtain rfl : a = b := by injection h
      exact Or.inl ⟨a, rfl, rfl⟩

theorem atransduceInit_toOption {σ : Type} (p : Transducer σ) (init : Option Val) :
    (atransduceInit p init).toOption = (transduceInit p init).toOption := by
  unfold atransduceInit transduceInit
  cases init with
  | some v => rfl
  | none => cases p.initial p.s0 <;> rfl

theorem arunPipeline_toOption {σ : Type} (p : Transducer σ) (items : List Val)
    (init : Option Val) :
    (arunPipeline p items init).toOption = (runPipeline p items init).toOption := by
  unfold arunPipeline runPipeline
  rcases toOption_eq_elim (atransduceInit_toOption p init) with
    ⟨⟨s, acc⟩, ha, hs⟩ | ⟨⟨e, ha⟩, ⟨f, hs⟩⟩
  · rw [ha, hs]
    dsimp only
    rcases toOption_eq_elim (aprocessItems_toOption p s items acc) with
      ⟨q, ha2, hs2⟩ | ⟨⟨e2, ha2⟩, ⟨f2, hs2⟩⟩
    · rw [ha2, hs2]
    · rw [ha2, hs2]; rfl
  · rw [ha, hs]; rfl

/-- The async orchestrator computes the same final accumulator (when it
computes one at all) as the sync orchestrator, whenever the two applied
pipelines agree in the same sense. -/
theorem atransduce_toOption {ρ σ : Type}
    (t t' : Transducer ρ → Except Exc (Transducer σ)) (r r' : Transducer ρ)
    (h : (t' r').toOption = (t r).toOption) (items : List Val) (init : Option Val) :
    (atransduce t' r' items init).toOption = (transduce t r items init).toOption := by
  unfold atransduce transduce
  rcases toOption_eq_elim h with ⟨p, ha, hs⟩ | ⟨⟨e, ha⟩, ⟨f, hs⟩⟩
  · rw [ha, hs]
    exact arunPipeline_toOption p items init
  · rw [ha, hs]; rfl

/-- A user-supplied predicate that raises an arbitrary (non-TypeError)
user exception on every item. -/
def raisingPred : Val → Except Exc Val := fun _ => .error (.userError 7)

/-- A user-supplied predicate that raises a TypeError on every item. -/
def typeErrorPred : Val → Except Exc Val := fun _ => .error (.typeError "bad")

/-- Feeding items into a pipeline whose step is exactly the appending
step accumulates all of them, in order, and never stops early. -/
theorem processLoop_append (tr : Transducer Unit) (h : tr.step = appending.step) :
    ∀ (items l : List Val),
    processLoop tr () items (.list l) = .ok ((), .list (l ++ items)) := by
  intro items
  induction items with
  | nil => intro l; simp [processLoop]
  | cons item rest ih =>
    intro l
    simp only [processLoop, h]
    show processLoop tr () rest (.list (l ++ [item])) = _
    rw [ih (l ++ [item])]
    simp

/-! ## Claim theorems -/

/-- C1 (counterexample): with a predicate that raises a user exception
on item 42, transduce over [42] does not re-raise that exact exception
object to the caller; the orchestrator's item loop replaces it by a
RuntimeError that chains the original as its cause. -/
theorem C1_counterexample :
    transduce (filtering raisingPred) appending [Val.int 42] Option.none
      = .error (.runtimeErrorFrom ("Error processing item: " ++ excStr (.userError 7))
          (.userError 7))
    ∧ transduce (filtering raisingPred) appending [Val.int 42] Option.none
      ≠ .error (.userError 7) := by
  refine ⟨rfl, ?_⟩
  intro h
  exact absurd h (by decide)

/-- C1 (amended): an exception raised by a user-supplied predicate
passes through the filtering operator unchanged, but the orchestrator's
item-processing loop catches it and re-raises a RuntimeError whose
message embeds the original's and whose cause is the original
exception; the caller receives that wrapper, not the original object. -/
theorem C1_exception_wrapping :
    (∀ (σ : Type) (d : Transducer σ) (pred : Val → Except Exc Val) (s : σ)
       (acc item : Val) (e : Exc),
      pred item = .error e → (Filtering d pred).step s acc item = .error e)
  ∧ (∀ (σ : Type) (tr : Transducer σ) (s : σ) (items : List Val) (acc : Val) (e : Exc),
      processLoop tr s items acc = .error e →
      processItems tr s items acc
        = .error (.runtimeErrorFrom ("Error processing item: " ++ excStr e) e))
  ∧ (∀ (ρ σ : Type) (t : Transducer ρ → Except Exc (Transducer σ)) (r : Transducer ρ)
       (p : Transducer σ) (s : σ) (a : Val) (items : List Val) (e : Exc),
      t r = .ok p → transduceInit p Option.none = .ok (s, a) →
      processLoop p s items a = .error e →
      transduce t r items Option.none
        = .error (.runtimeErrorFrom ("Error processing item: " ++ excStr e) e)) := by
  refine ⟨?_, ?_, ?_⟩
  · intro σ d pred s acc item e h
    simp only [Filtering]
    rw [h]
  · intro σ tr s items acc e h
    unfold processItems
    rw [h]
  · intro ρ σ t r p s a items e ht hinit hloop
    unfold transduce
    rw [ht]
    dsimp only
    unfold runPipeline
    rw [hinit]
    dsimp only
    unfold processItems
    rw [hloop]

/-- C1 (witness). -/
theorem C1_witness :
    (Filtering appending raisingPred).step () (.list []) (.int 42) = .error (.userError 7)
    ∧ processItems (Filtering appending raisingPred) () [.int 42] (.list [])
        = .error (.runtimeErrorFrom ("Error processing item: " ++ excStr (.userError 7))
            (.userError 7))
    ∧ transduce (filtering raisingPred) appending [.int 42] Option.none
        = .error (.runtimeErrorFrom ("Error processing item: " ++ excStr (.userError 7))
            (.userError 7)) :=
  ⟨C1_exception_wrapping.1 Unit appending raisingPred () (.list []) (.int 42) (.userError 7) rfl,
   C1_exception_wrapping.2.1 Unit (Filtering appending raisingPred) () [.int 42] (.list [])
     (.userError 7) rfl,
   C1_exception_wrapping.2.2 Unit Unit (filtering raisingPred) appending
     (Filtering appending raisingPred) () (.list []) [.int 42] (.userError 7) rfl rfl rfl⟩

/-- C2 (counterexample): the factory calls batching(0) and
repeating(-1) do not raise — they return the inner closure normally;
the ValueError is raised only when that closure is applied to a
downstream reducer (at Batching/Repeating construction). -/
theorem C2_counterexample :
    batching (σ := Unit) 0 = .ok (fun reducer => Batching reducer 0)
    ∧ Batching appending 0 = .error (.valueError "batching() size must be at least 1")
    ∧ repeating (σ := Unit) (-1) = .ok (fun reducer => Repeating reducer (-1))
    ∧ Repeating appending (-1) = .error (.valueError "num_times cannot be negative") :=
  ⟨rfl, rfl, rfl, rfl⟩

/-- C2 (amended): for size < 1 (resp. a negative repeat count) the
factory call itself returns normally, and the ValueError is raised
synchronously when the returned function is applied to a downstream
reducer — still before any pipeline runs; inside transduce that
construction error surfaces wrapped in a TypeError, whatever the
source items are. -/
theorem C2_construction_at_application :
    (∀ size : Int, size < 1 →
      batching (σ := Unit) size = .ok (fun reducer => Batching reducer size)
      ∧ Batching appending size = .error (.valueError "batching() size must be at least 1")
      ∧ ∀ (items : List Val) (init : Option Val),
          transduce (fun reducer => Batching reducer size) appending items init
            = .error (.typeErrorFrom
                ("Failed to apply transducer to reducer: "
                  ++ excStr (.valueError "batching() size must be at least 1"))
                (.valueError "batching() size must be at least 1")))
  ∧ (∀ m : Int, m < 0 →
      repeating (σ := Unit) m = .ok (fun reducer => Repeating reducer m)
      ∧ Repeating appending m = .error (.valueError "num_times cannot be negative")
      ∧ ∀ (items : List Val) (init : Option Val),
          transduce (fun reducer => Repeating reducer m) appending items init
            = .error (.typeErrorFrom
                ("Failed to apply transducer to reducer: "
                  ++ excStr (.valueError "num_times cannot be negative"))
                (.valueError "num_times cannot be negative"))) := by
  constructor
  · intro size h
    have hB : Batching (σ := Unit) appending size
        = .error (.valueError "batching() size must be at least 1") := by
      unfold Batching
      rw [if_pos h]
    refine ⟨rfl, hB, ?_⟩
    intro items init
    unfold transduce
    dsimp only
    rw [hB]
  · intro m h
    have hR : Repeating (σ := Unit) appending m
        = .error (.valueError "num_times cannot be negative") := by
      unfold Repeating
      rw [if_pos h]
    refine ⟨rfl, hR, ?_⟩
    intro items init
    unfold transduce
    dsimp only
    rw [hR]

/-- C2 (witness). -/
theorem C2_witness :
    transduce (fun reducer => Batching (σ := Unit) reducer 0) appending [Val.int 1] Option.none
      = .error (.typeErrorFrom
          ("Failed to apply transducer to reducer: "
            ++ excStr (.valueError "batching() size must be at least 1"))
          (.valueError "batching() size must be at least 1"))
    ∧ transduce (fun reducer => Repeating (σ := Unit) reducer (-1)) appending [] Option.none
      = .error (.typeErrorFrom
          ("Failed to apply transducer to reducer: "
            ++ excStr (.valueError "num_times cannot be negative"))
          (.valueError "num_times cannot be negative")) :=
  ⟨(C2_construction_at_application.1 0 (by decide)).2.2 [Val.int 1] Option.none,
   (C2_construction_at_application.2 (-1) (by decide)).2.2 [] Option.none⟩

/-- C3: once a step call returns a Reduced box, the loop of
_process_items stops at that very item — its result is the unwrapped
boxed accumulator, it does not depend on the remaining source items —
and transduce then goes directly to pipeline.complete on the unwrapped
value. -/
theorem C3_reduced_stops :
    (∀ (σ : Type) (tr : Transducer σ) (s : σ) (acc item : Val) (rest rest' : List Val)
       (s' : σ) (v : Val),
      tr.step s acc item = .ok (s', .reduced v) →
      processLoop tr s (item :: rest) acc = .ok (s', v)
      ∧ processLoop tr s (item :: rest) acc = processLoop tr s (item :: rest') acc)
  ∧ (∀ (ρ σ : Type) (t : Transducer ρ → Except Exc (Transducer σ)) (r : Transducer ρ)
       (p : Transducer σ) (s1 : σ) (a0 item : Val) (rest : List Val) (s2 : σ) (v : Val),
      t r = .ok p → transduceInit p Option.none = .ok (s1, a0) →
      p.step s1 a0 item = .ok (s2, .reduced v) →
      transduce t r (item :: rest) Option.none
        = (p.complete s2 v).map (fun q => q.2)) := by
  constructor
  · intro σ tr s acc item rest rest' s' v h
    constructor
    · simp only [processLoop]
      rw [h]
    · simp only [processLoop]
      rw [h]
  · intro ρ σ t r p s1 a0 item rest s2 v ht hinit hstep
    unfold transduce
    rw [ht]
    dsimp only
    unfold runPipeline
    rw [hinit]
    dsimp only
    unfold processItems
    simp only [processLoop]
    rw [hstep]
    dsimp only
    cases p.complete s2 v with
    | error e => rfl
    | ok q => rfl

/-- C3 (witness). -/
theorem C3_witness :
    processLoop (Take appending 1) (0, ()) [Val.int 5, Val.int 7] (.list [])
      = .ok ((1, ()), .list [Val.int 5])
    ∧ transduce (take 1) appending [Val.int 5, Val.int 7] Option.none
      = ((Take appending 1).complete (1, ()) (.list [Val.int 5])).map (fun q => q.2) :=
  ⟨(C3_reduced_stops.1 (Int × Unit) (Take appending 1) (0, ()) (.list []) (.int 5)
      [.int 7] [] (1, ()) (.list [.int 5]) rfl).1,
   C3_reduced_stops.2 Unit (Int × Unit) (take 1) appending (Take appending 1) (0, ())
      (.list []) (.int 5) [.int 7] (1, ()) (.list [.int 5]) rfl rfl rfl⟩

/-- C5: take(limit) — a non-positive limit makes step return
Reduced(acc) immediately without delegating; a positive limit makes
step delegate and wrap the delegated result in Reduced exactly once the
count reaches the limit; transduce(take(3), [1..5]) is [1,2,3]; and
take(0) over any non-empty source yields the empty list. -/
theorem C5_take :
    (∀ (σ : Type) (d : Transducer σ) (limit c : Int) (ds : σ) (acc item : Val),
      limit ≤ 0 → (Take d limit).step (c, ds) acc item = .ok ((c, ds), .reduced acc))
  ∧ (∀ (σ : Type) (d : Transducer σ) (limit c : Int) (ds : σ) (acc item : Val)
       (ds' : σ) (v : Val),
      0 < limit → d.step ds acc item = .ok (ds', v) →
      (Take d limit).step (c, ds) acc item
        = .ok ((c + 1, ds'), if c + 1 < limit then v else .reduced v))
  ∧ transduce (take 3) appending [Val.int 1, Val.int 2, Val.int 3, Val.int 4, Val.int 5]
      Option.none = .ok (.list [Val.int 1, Val.int 2, Val.int 3])
  ∧ (∀ (item : Val) (rest : List Val),
      transduce (take 0) appending (item :: rest) Option.none = .ok (.list [])) := by
  refine ⟨?_, ?_, rfl, ?_⟩
  · intro σ d limit c ds acc item h
    simp only [Take]
    rw [if_pos h]
  · intro σ d limit c ds acc item ds' v hpos hstep
    simp only [Take]
    rw [if_neg (by omega), hstep]
  · intro item rest
    rfl

/-- C5 (witness). -/
theorem C5_witness :
    (Take appending 0).step (0, ()) (.list []) (.int 9) = .ok ((0, ()), .reduced (.list []))
    ∧ (Take appending 2).step (0, ()) (.list []) (.int 9)
        = .ok ((1, ()), if (0 : Int) + 1 < 2 then Val.list [.int 9]
            else .reduced (.list [.int 9]))
    ∧ transduce (take 0) appending [Val.int 1] Option.none = .ok (.list []) :=
  ⟨C5_take.1 Unit appending 0 0 () (.list []) (.int 9) (by decide),
   C5_take.2.1 Unit appending 2 0 () (.list []) (.int 9) () (.list [.int 9])
     (by decide) rfl,
   C5_take.2.2.2 (.int 1) []⟩

/-- C9: expecting_single raises the cardinality error from step exactly
when a prior item was already seen, and from complete exactly when no
item was seen; with exactly one item the run succeeds. -/
theorem C9_expecting_single :
    (∀ (σ : Type) (d : Transducer σ) (c : Int) (ds : σ) (acc item : Val),
      0 < c → (ExpectingSingle d).step (c, ds) acc item
        = .error (.runtimeError "Too many steps!"))
  ∧ (∀ (σ : Type) (d : Transducer σ) (ds : σ) (acc item : Val),
      (ExpectingSingle d).step (0, ds) acc item
        = (d.step ds acc item).map (fun r => ((0 + 1, r.1), r.2)))
  ∧ (∀ (σ : Type) (d : Transducer σ) (c : Int) (ds : σ) (acc : Val),
      c < 1 → (ExpectingSingle d).complete (c, ds) acc
        = .error (.runtimeError "Too few steps!"))
  ∧ (∀ (σ : Type) (d : Transducer σ) (c : Int) (ds : σ) (acc : Val),
      1 ≤ c → (ExpectingSingle d).complete (c, ds) acc
        = (d.complete ds acc).map (fun r => ((c, r.1), r.2)))
  ∧ transduce expecting_single appending [Val.int 1, Val.int 2] Option.none
      = .error (.runtimeErrorFrom
          ("Error processing item: " ++ excStr (.runtimeError "Too many steps!"))
          (.runtimeError "Too many steps!"))
  ∧ transduce expecting_single appending [] Option.none
      = .error (.runtimeError "Too few steps!")
  ∧ transduce expecting_single appending [Val.int 42] Option.none
      = .ok (.list [Val.int 42]) := by
  refine ⟨?_, ?_, ?_, ?_, rfl, rfl, rfl⟩
  · intro σ d c ds acc item h
    simp only [ExpectingSingle]
    rw [if_pos (show c + 1 > 1 by omega)]
  · intro σ d ds acc item
    simp only [ExpectingSingle]
    rw [if_neg (show ¬((0 : Int) + 1 > 1) by omega)]
  · intro σ d c ds acc h
    simp only [ExpectingSingle]
    rw [if_pos h]
  · intro σ d c ds acc h
    simp only [ExpectingSingle]
    rw [if_neg (show ¬(c < 1) by omega)]

/-- C9 (witness). -/
theorem C9_witness :
    (ExpectingSingle appending).step (1, ()) (.list [Val.int 1]) (.int 2)
      = .error (.runtimeError "Too many steps!")
    ∧ (ExpectingSingle appending).complete (0, ()) (.list [])
      = .error (.runtimeError "Too few steps!")
    ∧ (ExpectingSingle appending).complete (1, ()) (.list [Val.int 42])
      = .ok ((1, ()), .list [Val.int 42]) :=
  ⟨C9_expecting_single.1 Unit appending 1 () (.list [Val.int 1]) (.int 2) (by decide),
   C9_expecting_single.2.2.1 Unit appending 0 () (.list []) (by decide),
   C9_expecting_single.2.2.2.1 Unit appending 1 () (.list [Val.int 42]) (by decide)⟩

/-- Nth.step when the incremented counter misses n: count, do not
delegate, keep the accumulator. -/
theorem nth_step_skip {σ : Type} (d : Transducer σ) (n : Int) (default : Val)
    (c : Int) (ds : σ) (acc item : Val) (h : c + 1 ≠ n) :
    (Nth d n default).step (c, ds) acc item = .ok ((c + 1, ds), acc) := by
  simp only [Nth]
  rw [if_neg h]

/-- Nth.step when the incremented counter reaches n: delegate the item
and wrap the delegated result in Reduced. -/
theorem nth_step_hit {σ : Type} (d : Transducer σ) (n : Int) (default : Val)
    (c : Int) (ds : σ) (acc item : Val) (h : c + 1 = n) :
    (Nth d n default).step (c, ds) acc item
      = (d.step ds acc item).map (fun r => ((c + 1, r.1), Val.reduced r.2)) := by
  simp only [Nth]
  rw [if_pos h]

/-- Feeding items through Nth over appending while the counter never
reaches n leaves the accumulator untouched and just counts. -/
theorem nth_loop_skip (n : Int) (default : Val) :
    ∀ (items : List Val) (c : Int) (l : List Val),
    (∀ k : Nat, k < items.length → c + k + 1 ≠ n) →
    processLoop (Nth appending n default) (c, ()) items (.list l)
      = .ok ((c + items.length, ()), .list l) := by
  intro items
  induction items with
  | nil =>
    intro c l h
    simp [processLoop]
  | cons item rest ih =>
    intro c l h
    have h0 : c + 1 ≠ n := by
      have := h 0 (by simp)
      simpa using this
    simp only [processLoop]
    rw [nth_step_skip appending n default c () (.list l) item h0]
    dsimp only
    rw [ih (c + 1) l ?side]
    case side =>
      intro k hk
      have := h (k + 1) (by simpa using Nat.succ_lt_succ hk)
      push_cast at this ⊢
      omega
    have : c + 1 + (rest.length : Int) = c + ((item :: rest).length : Int) := by
      push_cast [List.length_cons]
      ring
    rw [this]

/-- C10: for every n ≤ 0, nth(n, default) over appending returns the
empty list and raises nothing — the 1-based counter can never equal n,
so no item is delegated, no Reduced is produced, and at completion the
counter is not below n, so the default is never injected. -/
theorem C10_nth_nonpositive :
    ∀ (n : Int) (default : Val) (xs : List Val), n ≤ 0 →
    transduce (nth n default) appending xs Option.none = .ok (.list []) := by
  intro n default xs h
  unfold transduce nth
  dsimp only
  unfold runPipeline
  have hinit : transduceInit (Nth appending n default) Option.none
      = .ok ((0, ()), .list []) := rfl
  rw [hinit]
  dsimp only
  unfold processItems
  rw [nth_loop_skip n default xs 0 [] (fun k hk => by omega)]
  dsimp only
  simp only [Nth]
  rw [if_neg (show ¬((0 : Int) + (xs.length : Int) < n) by omega)]
  rfl

/-- C10 (witness). -/
theorem C10_witness :
    transduce (nth 0 (Val.int 99)) appending [Val.int 1, Val.int 2] Option.none
      = .ok (.list []) :=
  C10_nth_nonpositive 0 (Val.int 99) [Val.int 1, Val.int 2] (by decide)

/-- C6: batching(size) with size ≥ 1 — construction succeeds; step
buffers the item and delegates the full batch exactly when the buffer
reaches size, clearing it; complete over appending delegates one final
partial batch when the buffer is non-empty before finalizing, and just
finalizes otherwise; and the two transduce examples hold. -/
theorem C6_batching :
    (∀ (σ : Type) (d : Transducer σ) (size : Int), 1 ≤ size →
      Batching d size = .ok (Batching.make d size))
  ∧ (∀ (σ : Type) (d : Transducer σ) (size : Int) (pending : List Val) (ds : σ)
       (acc item : Val),
      ((pending.length : Int) + 1) = size →
      (Batching.make d size).step (pending, ds) acc item
        = (d.step ds acc (.list (pending ++ [item]))).map (fun r => (([], r.1), r.2)))
  ∧ (∀ (σ : Type) (d : Transducer σ) (size : Int) (pending : List Val) (ds : σ)
       (acc item : Val),
      ((pending.length : Int) + 1) ≠ size →
      (Batching.make d size).step (pending, ds) acc item
        = .ok ((pending ++ [item], ds), acc))
  ∧ (∀ (size : Int) (l : List Val),
      (Batching.make appending size).complete ([], ()) (.list l)
        = .ok (([], ()), .list l))
  ∧ (∀ (size : Int) (pending l : List Val), pending ≠ [] →
      (Batching.make appending size).complete (pending, ()) (.list l)
        = .ok ((pending, ()), .list (l ++ [.list pending])))
  ∧ transduce (fun r => Batching r 2) appending
      [Val.int 1, Val.int 2, Val.int 3, Val.int 4, Val.int 5] Option.none
      = .ok (.list [.list [.int 1, .int 2], .list [.int 3, .int 4], .list [.int 5]])
  ∧ transduce (fun r => Batching r 2) appending [] Option.none = .ok (.list []) := by
  refine ⟨?_, ?_, ?_, ?_, ?_, rfl, rfl⟩
  · intro σ d size h
    unfold Batching
    rw [if_neg (show ¬(size < 1) by omega)]
  · intro σ d size pending ds acc item h
    simp only [Batching.make]
    rw [if_pos (show (((pending ++ [item]).length : Int)) = size by
      simp only [List.length_append, List.length_singleton]; push_cast; omega)]
  · intro σ d size pending ds acc item h
    simp only [Batching.make]
    rw [if_neg (show ¬(((pending ++ [item]).length : Int)) = size by
      simp only [List.length_append, List.length_singleton]; push_cast; omega)]
  · intro size l
    rfl
  · intro size pending l h
    cases pending with
    | nil => exact absurd rfl h
    | cons a as => rfl

/-- C6 (witness). -/
theorem C6_witness :
    Batching appending 2 = .ok (Batching.make appending 2)
    ∧ (Batching.make appending 2).step ([Val.int 1], ()) (.list []) (.int 2)
        = .ok (([], ()), .list [.list [.int 1, .int 2]])
    ∧ (Batching.make appending 2).step ([], ()) (.list []) (.int 1)
        = .ok (([Val.int 1], ()), .list [])
    ∧ (Batching.make appending 2).complete ([Val.int 5], ())
        (.list [.list [.int 1, .int 2]])
        = .ok (([Val.int 5], ()), .list [.list [.int 1, .int 2], .list [.int 5]]) :=
  ⟨C6_batching.1 Unit appending 2 (by decide),
   C6_batching.2.1 Unit appending 2 [Val.int 1] () (.list []) (.int 2) (by decide),
   C6_batching.2.2.1 Unit appending 2 [] () (.list []) (.int 1) (by decide),
   C6_batching.2.2.2.2.1 2 [Val.int 5] [.list [.int 1, .int 2]] (by simp)⟩

/-- C7: over a source of length L with k ≤ L, take_last(k) yields the
trailing k items, drop_last(k) yields the leading L − k items, and
their concatenation (drop-result first) reproduces the source. -/
theorem C7_window_roundtrip :
    ∀ (xs : List Val) (k : Nat), k ≤ xs.length →
    ∃ nres mres : List Val,
      transduce (take_last (k : Int)) appending xs Option.none = .ok (.list nres)
      ∧ transduce (drop_last (k : Int)) appending xs Option.none = .ok (.list mres)
      ∧ nres.length = k ∧ mres.length = xs.length - k ∧ mres ++ nres = xs := by
  intro xs k hk
  refine ⟨xs.drop (xs.length - k), xs.take (xs.length - k), ?_, ?_, ?_, ?_, ?_⟩
  · unfold transduce take_last
    dsimp only
    unfold runPipeline
    have hinit : transduceInit (TakeLast appending (k : Int)) Option.none
        = .ok ((), .list []) := rfl
    rw [hinit]
    dsimp only
    unfold processItems
    have hloop : processLoop (TakeLast appending (k : Int)) () xs (.list [])
        = .ok ((), .list xs) := by
      have := processLoop_append (TakeLast appending (k : Int)) rfl xs []
      simpa using this
    rw [hloop]
    dsimp only
    simp only [TakeLast]
    by_cases h0 : (k : Int) ≤ 0
    · rw [if_pos h0]
      have hke : k = 0 := by omega
      subst hke
      simp [List.drop_length]
      rfl
    · rw [if_neg h0]
      rw [if_pos (show (k : Int) ≤ (xs.length : Int) by exact_mod_cast hk)]
      rw [show ((k : Int)).toNat = k by omega]
      rfl
  · unfold transduce drop_last
    dsimp only
    unfold runPipeline
    have hinit : transduceInit (DropLast appending (k : Int)) Option.none
        = .ok ((), .list []) := rfl
    rw [hinit]
    dsimp only
    unfold processItems
    have hloop : processLoop (DropLast appending (k : Int)) () xs (.list [])
        = .ok ((), .list xs) := by
      have := processLoop_append (DropLast appending (k : Int)) rfl xs []
      simpa using this
    rw [hloop]
    dsimp only
    simp only [DropLast]
    by_cases h0 : (k : Int) ≤ 0
    · rw [if_pos h0]
      have hke : k = 0 := by omega
      subst hke
      simp [List.take_length]
      rfl
    · rw [if_neg h0]
      by_cases h1 : (k : Int) < (xs.length : Int)
      · rw [if_pos h1]
        rw [show ((k : Int)).toNat = k by omega]
        rfl
      · rw [if_neg h1]
        rw [show xs.length - k = 0 by omega]
        simp [List.take_zero]
        rfl
  · simp [List.length_drop]
    omega
  · simp [List.length_take]
  · exact List.take_append_drop (xs.length - k) xs

/-- C7 (witness). -/
theorem C7_witness :
    ∃ nres mres : List Val,
      transduce (take_last ((2 : Nat) : Int)) appending
        [Val.int 1, Val.int 2, Val.int 3, Val.int 4, Val.int 5] Option.none
        = .ok (.list nres)
      ∧ transduce (drop_last ((2 : Nat) : Int)) appending
        [Val.int 1, Val.int 2, Val.int 3, Val.int 4, Val.int 5] Option.none
        = .ok (.list mres)
      ∧ nres.length = 2
      ∧ mres.length = [Val.int 1, Val.int 2, Val.int 3, Val.int 4, Val.int 5].length - 2
      ∧ mres ++ nres = [Val.int 1, Val.int 2, Val.int 3, Val.int 4, Val.int 5] :=
  C7_window_roundtrip [Val.int 1, Val.int 2, Val.int 3, Val.int 4, Val.int 5] 2 (by decide)

/-- Feeding items through Nth over appending reaches position n inside
the item list: the loop delegates exactly the nth item, wraps in
Reduced, and stops with the accumulator extended by that single item. -/
theorem nth_loop_hit (n : Int) (default : Val) :
    ∀ (items : List Val) (c : Int) (l : List Val),
    c < n → n ≤ c + items.length →
    ∃ item, items.get? (n - c - 1).toNat = some item ∧
      processLoop (Nth appending n default) (c, ()) items (.list l)
        = .ok ((n, ()), .list (l ++ [item])) := by
  intro items
  induction items with
  | nil =>
    intro c l h1 h2
    simp at h2
    omega
  | cons item rest ih =>
    intro c l h1 h2
    by_cases hc : c + 1 = n
    · refine ⟨item, ?_, ?_⟩
      · rw [show (n - c - 1).toNat = 0 by omega]
        rfl
      · simp only [processLoop]
        rw [nth_step_hit appending n default c () (.list l) item hc]
        rw [show appending.step () (.list l) item = .ok ((), .list (l ++ [item])) from rfl]
        dsimp only [Except.map]
        rw [hc]
    · have hlt : c + 1 < n := by omega
      obtain ⟨it, hget, hloop⟩ := ih (c + 1) l hlt
        (by push_cast [List.length_cons] at h2 ⊢; omega)
      refine ⟨it, ?_, ?_⟩
      · rw [show (n - c - 1).toNat = (n - (c + 1) - 1).toNat + 1 by omega]
        simpa using hget
      · simp only [processLoop]
        rw [nth_step_skip appending n default c () (.list l) item hc]
        dsimp only
        exact hloop

/-- C8: nth(n, default) with n ≥ 1 — step counts without delegating
until the counter reaches n, then delegates that item and wraps the
result in Reduced; when the source runs out first, complete delegates
the default as an item before finalizing; the overall result over
appending is the one-element list holding the nth item or the default. -/
theorem C8_nth :
    (∀ (σ : Type) (d : Transducer σ) (n : Int) (default : Val) (c : Int) (ds : σ)
       (acc item : Val),
      c + 1 ≠ n → (Nth d n default).step (c, ds) acc item = .ok ((c + 1, ds), acc))
  ∧ (∀ (σ : Type) (d : Transducer σ) (n : Int) (default : Val) (c : Int) (ds : σ)
       (acc item : Val),
      c + 1 = n → (Nth d n default).step (c, ds) acc item
        = (d.step ds acc item).map (fun r => ((c + 1, r.1), Val.reduced r.2)))
  ∧ (∀ (n : Int) (default : Val) (c : Int) (l : List Val),
      c < n → (Nth appending n default).complete (c, ()) (.list l)
        = .ok ((c, ()), .list (l ++ [default])))
  ∧ (∀ (n : Int) (default : Val) (xs : List Val), 1 ≤ n →
      transduce (nth n default) appending xs Option.none
        = .ok (.list [(xs.get? (n - 1).toNat).getD default])) := by
  refine ⟨fun σ d n default c ds acc item h => nth_step_skip d n default c ds acc item h,
          fun σ d n default c ds acc item h => nth_step_hit d n default c ds acc item h,
          ?_, ?_⟩
  · intro n default c l h
    simp only [Nth]
    rw [if_pos h]
    rfl
  · intro n default xs h
    unfold transduce nth
    dsimp only
    unfold runPipeline
    have hinit : transduceInit (Nth appending n default) Option.none
        = .ok ((0, ()), .list []) := rfl
    rw [hinit]
    dsimp only
    unfold processItems
    by_cases hn : n ≤ (xs.length : Int)
    · obtain ⟨item, hget, hloop⟩ := nth_loop_hit n default xs 0 [] (by omega) (by omega)
      rw [hloop]
      dsimp only
      simp only [Nth]
      rw [if_neg (show ¬(n < n) by omega)]
      have hgd : (xs.get? (n - 1).toNat).getD default = item := by
        rw [show (n - 1).toNat = (n - 0 - 1).toNat by omega]
        rw [hget]
        rfl
      rw [hgd]
      rfl
    · rw [nth_loop_skip n default xs 0 [] (fun k hk => by omega)]
      dsimp only
      simp only [Nth]
      rw [if_pos (show (0 : Int) + (xs.length : Int) < n by omega)]
      have hgd : xs.get? (n - 1).toNat = Option.none := by
        rw [List.get?_eq_none]
        omega
      rw [hgd]
      rfl

/-- C8 (witness). -/
theorem C8_witness :
    (Nth appending 3 Val.none).step (0, ()) (.list []) (.int 1) = .ok ((1, ()), .list [])
    ∧ (Nth appending 3 Val.none).step (2, ()) (.list []) (.int 7)
        = .ok ((3, ()), .reduced (.list [.int 7]))
    ∧ (Nth appending 3 Val.none).complete (2, ()) (.list [])
        = .ok ((2, ()), .list [Val.none])
    ∧ transduce (nth 3 Val.none) appending [Val.int 4, Val.int 5] Option.none
        = .ok (.list [Val.none]) :=
  ⟨C8_nth.1 Unit appending 3 Val.none 0 () (.list []) (.int 1) (by decide),
   C8_nth.2.1 Unit appending 3 Val.none 2 () (.list []) (.int 7) (by decide),
   C8_nth.2.2.1 3 Val.none 2 [] (by decide),
   C8_nth.2.2.2 3 Val.none [Val.int 4, Val.int 5] (by decide)⟩

/-- AsyncFiltering behaves exactly like Filtering whenever the
predicate never raises a TypeError (the except TypeError fallback is
then never taken). -/
theorem asyncFiltering_eq {σ : Type} (d : Transducer σ) (p : Val → Except Exc Val)
    (hp : ∀ (v : Val) (e : Exc), p v = .error e → e.isTypeError = false) :
    AsyncFiltering d p = Filtering d p := by
  unfold AsyncFiltering Filtering
  congr 1
  funext s acc item
  cases hpi : p item with
  | ok b => rfl
  | error e => simp [hp item e hpi]

/-- C4 (counterexample): filtering has both variants, yet with an async
predicate that raises a TypeError the two runs disagree on [1] — the
sync orchestrator re-raises (wrapped), while the async operator's
except TypeError fallback re-invokes the predicate without await,
obtains a truthy fresh coroutine, and includes the item. -/
theorem C4_counterexample :
    transduce (filtering typeErrorPred) appending [Val.int 1] Option.none
      = .error (.runtimeErrorFrom ("Error processing item: " ++ excStr (.typeError "bad"))
          (.typeError "bad"))
    ∧ atransduce (afiltering typeErrorPred) aappending [Val.int 1] Option.none
      = .ok (.list [Val.int 1])
    ∧ (atransduce (afiltering typeErrorPred) aappending [Val.int 1] Option.none).toOption
      ≠ (transduce (filtering typeErrorPred) appending [Val.int 1] Option.none).toOption := by
  refine ⟨rfl, rfl, ?_⟩
  intro h
  exact absurd h (by decide)

/-- C4 (amended): for each embedded operator pair with both variants —
take, batching, nth, expecting_single, repeating, take_last, drop_last
— the async run over the same items yields the same final accumulator
as the sync run (and fails exactly when it fails); filtering does too,
provided its predicate never raises a TypeError. -/
theorem C4_sync_async_equivalence :
    (∀ (limit : Int) (items : List Val),
      (atransduce (atake limit) aappending items Option.none).toOption
        = (transduce (take limit) appending items Option.none).toOption)
  ∧ (∀ (size : Int) (items : List Val),
      (atransduce (fun r => AsyncBatching r size) aappending items Option.none).toOption
        = (transduce (fun r => Batching r size) appending items Option.none).toOption)
  ∧ (∀ (n : Int) (default : Val) (items : List Val),
      (atransduce (anth n default) aappending items Option.none).toOption
        = (transduce (nth n default) appending items Option.none).toOption)
  ∧ (∀ (items : List Val),
      (atransduce aexpecting_single aappending items Option.none).toOption
        = (transduce expecting_single appending items Option.none).toOption)
  ∧ (∀ (m : Int) (items : List Val),
      (atransduce (fun r => AsyncRepeating r m) aappending items Option.none).toOption
        = (transduce (fun r => Repeating r m) appending items Option.none).toOption)
  ∧ (∀ (limit : Int) (items : List Val),
      (atransduce (atake_last limit) aappending items Option.none).toOption
        = (transduce (take_last limit) appending items Option.none).toOption)
  ∧ (∀ (limit : Int) (items : List Val),
      (atransduce (adrop_last limit) aappending items Option.none).toOption
        = (transduce (drop_last limit) appending items Option.none).toOption)
  ∧ (∀ (p : Val → Except Exc Val),
      (∀ (v : Val) (e : Exc), p v = .error e → e.isTypeError = false) →
      ∀ (items : List Val),
      (atransduce (afiltering p) aappending items Option.none).toOption
        = (transduce (filtering p) appending items Option.none).toOption) := by
  refine ⟨?_, ?_, ?_, ?_, ?_, ?_, ?_, ?_⟩
  · intro limit items
    exact atransduce_toOption (take limit) (atake limit) appending aappending rfl items
      Option.none
  · intro size items
    refine atransduce_toOption (fun r => Batching r size) (fun r => AsyncBatching r size)
      appending aappending ?_ items Option.none
    by_cases hsz : size < 1
    · simp [AsyncBatching, Batching, hsz, Except.toOption]
    · unfold AsyncBatching Batching
      dsimp only
      rw [if_neg hsz, if_neg hsz]
      rfl
  · intro n default items
    exact atransduce_toOption (nth n default) (anth n default) appending aappending rfl
      items Option.none
  · intro items
    exact atransduce_toOption expecting_single aexpecting_single appending aappending rfl
      items Option.none
  · intro m items
    exact atransduce_toOption (fun r => Repeating r m) (fun r => AsyncRepeating r m)
      appending aappending rfl items Option.none
  · intro limit items
    exact atransduce_toOption (take_last limit) (atake_last limit) appending aappending rfl
      items Option.none
  · intro limit items
    exact atransduce_toOption (drop_last limit) (adrop_last limit) appending aappending rfl
      items Option.none
  · intro p hp items
    refine atransduce_toOption (filtering p) (afiltering p) appending aappending ?_ items
      Option.none
    rw [show afiltering (σ := Unit) p aappending = .ok (AsyncFiltering appending p) from rfl]
    rw [asyncFiltering_eq appending p hp]
    rfl

/-- C4 (witness). -/
theorem C4_witness :
    (atransduce (atake 2) aappending [Val.int 1, Val.int 2, Val.int 3] Option.none).toOption
      = (transduce (take 2) appending [Val.int 1, Val.int 2, Val.int 3] Option.none).toOption
    ∧ (atransduce (afiltering (fun v => .ok v)) aappending [Val.int 1, Val.int 0]
        Option.none).toOption
      = (transduce (filtering (fun v => .ok v)) appending [Val.int 1, Val.int 0]
        Option.none).toOption :=
  ⟨C4_sync_async_equivalence.1 2 [Val.int 1, Val.int 2, Val.int 3],
   C4_sync_async_equivalence.2.2.2.2.2.2.2 (fun v => .ok v)
     (fun _ _ h => Except.noConfusion h) [Val.int 1, Val.int 0]⟩
